import Mathlib

/-!
Verification development for the booking-record harvesting pipeline
(`src/main.py`).  The Python source is shallowly embedded: pure helper
functions become Lean functions, JSON values and XML documents become
inductive types, the retrying HTTP requester becomes a recursion over a
stream of attempt outcomes, and the persistence queue with its writer
workers becomes an explicit transition system.
-/

namespace DH

/-- Model of a decoded JSON value (the payloads handled by the pipeline).
Numbers are idealised as rationals. -/
inductive Json where
  | null
  | bool (b : Bool)
  | num (q : ℚ)
  | str (s : String)
  | arr (xs : List Json)
  | obj (fields : List (String × Json))

/-- Python truthiness for the JSON values the code tests with `if`/`or`. -/
def jsonTruthy : Json → Bool
  | .null => false
  | .bool b => b
  | .num q => q ≠ 0
  | .str s => s ≠ ""
  | .arr xs => !xs.isEmpty
  | .obj fs => !fs.isEmpty

/-- `dict.get(k)` on a JSON object: absent keys give `None` (`Json.null`). -/
def pyGet (fields : List (String × Json)) (k : String) : Json :=
  match fields.lookup k with
  | some v => v
  | none => .null

/-- Whitespace as recognised by Python's `str.strip()` (the subset that
occurs in the data handled here). -/
def isWs (c : Char) : Bool :=
  c = ' ' ∨ c = '\t' ∨ c = '\n' ∨ c = '\r'

/-- Strip leading and trailing whitespace from a character list. -/
def stripChars (l : List Char) : List Char :=
  ((l.dropWhile isWs).reverse.dropWhile isWs).reverse

/-- Embedding of Python's `str.strip()`. -/
def pyStrip (s : String) : String :=
  ⟨stripChars s.data⟩

/-- Embedding of Python's `str.lower()` (ASCII case folding). -/
def pyLower (s : String) : String :=
  s.toLower

/-- Does `a` start with the characters of `b`? -/
def leadsWith : List Char → List Char → Bool
  | _, [] => true
  | [], _ :: _ => false
  | a :: as, b :: bs => a = b && leadsWith as bs

/-- Embedding of Python's `needle in hay` on strings (substring scan). -/
def scanContains : List Char → List Char → Bool
  | [], needle => needle.isEmpty
  | a :: rest, needle => leadsWith (a :: rest) needle || scanContains rest needle

/-- `needle in hay` for strings. -/
def pyIn (needle hay : String) : Bool :=
  scanContains hay.data needle.data

/-- Embedding of Python's `hay.endswith(tail)`. -/
def pyEndsWith (hay tail : String) : Bool :=
  leadsWith hay.data.reverse tail.data.reverse

/-- Digit list to natural number. -/
def natOfDigits (l : List Char) : ℕ :=
  l.foldl (fun a c => 10 * a + (c.toNat - 48)) 0

/-- Optional leading sign of a numeric literal: `(negative, rest)`. -/
def splitSign : List Char → Bool × List Char
  | '-' :: rest => (true, rest)
  | '+' :: rest => (false, rest)
  | l => (false, l)

/-- Unsigned decimal literal `digits[.digits]` (at least one digit). -/
def parseDecCore (l : List Char) : Option ℚ :=
  let ip := l.takeWhile Char.isDigit
  let rest := l.dropWhile Char.isDigit
  match rest with
  | [] => if ip.isEmpty then none else some (natOfDigits ip)
  | '.' :: fp =>
    if fp.all Char.isDigit && !(ip.isEmpty && fp.isEmpty) then
      some ((natOfDigits ip : ℚ) + (natOfDigits fp : ℚ) / (10 ^ fp.length))
    else none
  | _ => none

/-- Model of Python's `float(str)` on plain decimal literals (optional
sign and surrounding whitespace).  Scientific notation, `inf`/`nan` and
digit underscores are outside the model. -/
def parseDecimal (s : String) : Option ℚ :=
  let l := stripChars s.data
  let (neg, l') := splitSign l
  (parseDecCore l').map (fun q => if neg then -q else q)

/-- Model of Python's `float(x)` on a JSON value: numbers and booleans are
numeric, strings are parsed, everything else raises (`none`). -/
def pyFloat : Json → Option ℚ
  | .num q => some q
  | .bool b => some (if b then 1 else 0)
  | .str s => parseDecimal s
  | _ => none

/-- Truncation toward zero, as performed by Python's `int(float)`. -/
def truncQ (q : ℚ) : ℤ :=
  if 0 ≤ q then ⌊q⌋ else ⌈q⌉

/-- Embedding of the token coercion in `process_single_pms`:
`try: token = int(float(token_raw)) except Exception: token = 0`. -/
def coerceEchoToken (v : Json) : ℤ :=
  match pyFloat v with
  | some q => truncQ q
  | none => 0

/-- A booking-log row, modelled as the JSON dictionary the backend returns
(`row.get("echoToken")` is used on it). -/
abbrev BookRow := List (String × Json)

/-- Embedding of the token-list extraction in `process_single_pms`
(src/main.py lines 1005-1013): for each row coerce `echoToken` and append
it when nonzero; rows are kept in order and never deduplicated. -/
def process_tokens (rows : List BookRow) : List ℤ :=
  rows.filterMap (fun row =>
    if coerceEchoToken (pyGet row "echoToken") = 0 then none
    else some (coerceEchoToken (pyGet row "echoToken")))

/-- An XML element: tag, attributes, text content, children.  Tags stand
for the namespace-resolved names used by the source's `ns` map (all
relevant lookups are in the `ota` namespace, so the qualified name is
abbreviated to its local part). -/
inductive XmlNode where
  | mk (tag : String) (attrs : List (String × String)) (txt : Option String)
      (children : List XmlNode)

def XmlNode.tag : XmlNode → String
  | .mk t _ _ _ => t

def XmlNode.attrs : XmlNode → List (String × String)
  | .mk _ a _ _ => a

def XmlNode.txt : XmlNode → Option String
  | .mk _ _ x _ => x

def XmlNode.children : XmlNode → List XmlNode
  | .mk _ _ _ cs => cs

mutual
/-- All proper descendants of a node with the given tag, in document
order (embeds `ElementTree`'s `.//tag` search). -/
def findDescNode (tag : String) : XmlNode → List XmlNode
  | .mk _ _ _ cs => findDescList tag cs

def findDescList (tag : String) : List XmlNode → List XmlNode
  | [] => []
  | c :: rest =>
    (if c.tag = tag then [c] else []) ++ findDescNode tag c ++ findDescList tag rest
end

/-- `root.find(".//ota:tag", ns)`: first matching descendant. -/
def findDesc (tag : String) (n : XmlNode) : Option XmlNode :=
  (findDescNode tag n).head?

/-- Children of a node carrying the given tag. -/
def childrenTagged (tag : String) (n : XmlNode) : List XmlNode :=
  n.children.filter (fun c => c.tag = tag)

/-- `root.find(".//ota:Source/ota:BookingChannel/ota:CompanyName", ns)`. -/
def findCompanyName (root : XmlNode) : Option XmlNode :=
  ((findDescNode "Source" root).flatMap (fun s =>
    (childrenTagged "BookingChannel" s).flatMap (fun bc =>
      childrenTagged "CompanyName" bc))).head?

/-- `attrib.get(k)` with `None`/absent collapsed to `""` (every use in the
source immediately replaces `None` by `""`). -/
def attrD (n : XmlNode) (k : String) : String :=
  (n.attrs.lookup k).getD ""

/-- The source's helper `t(el)`: `(el.text or "").strip()` when the
element exists and has text, else `""`. -/
def elTextStrip (e : XmlNode) : String :=
  pyStrip (e.txt.getD "")

/-- `findtext` from `parse_booking_info`: text of the first matching
descendant, stripped; `""` if absent. -/
def findTextDesc (tag : String) (root : XmlNode) : String :=
  match findDesc tag root with
  | some e => elTextStrip e
  | none => ""

/-- A raw fetched document as handed to the parsing layer.  The source
calls `ET.fromstring`; on failure it strips a leading non-markup junk
prefix (everything before the first `<`) and retries once.  The model
distinguishes the four observable cases. -/
inductive RawDoc where
  | emptyDoc
  | malformed
  | junkWrapped (t : XmlNode)
  | wellFormed (t : XmlNode)

/-- Result of the source's parse-then-strip-then-reparse sequence. -/
def parseXml : RawDoc → Option XmlNode
  | .junkWrapped t => some t
  | .wellFormed t => some t
  | _ => none

/-- Python truthiness of the raw string handed to the parsers: only the
empty document is falsy (`if not xml_text: ...`). -/
def rawTruthy : RawDoc → Bool
  | .emptyDoc => false
  | .malformed => true
  | .junkWrapped _ => true
  | .wellFormed _ => true

/-- The record assembled by `parse_booking_info` (src/main.py 347-405). -/
structure BookingInfo where
  start : String
  endD : String
  given : String
  surname : String
  phone : String
  email : String
  total : String
  currency : String
deriving DecidableEq

/-- The `total_amount` loop of `parse_booking_info`: first non-empty
attribute among `AmountIncludingMarkup`, `AmountAfterTax`,
`AmountBeforeTax` of the `Total` element, stripped; `""` otherwise. -/
def totalOf (o : Option XmlNode) : String :=
  match o with
  | none => ""
  | some te =>
    if attrD te "AmountIncludingMarkup" ≠ "" then
      pyStrip (attrD te "AmountIncludingMarkup")
    else if attrD te "AmountAfterTax" ≠ "" then
      pyStrip (attrD te "AmountAfterTax")
    else if attrD te "AmountBeforeTax" ≠ "" then
      pyStrip (attrD te "AmountBeforeTax")
    else ""

/-- The field extraction of `parse_booking_info` on a parsed root. -/
def parse_node (root : XmlNode) : BookingInfo :=
  { start := pyStrip (((findDesc "TimeSpan" root).map
      (fun e => attrD e "Start")).getD "")
    endD := pyStrip (((findDesc "TimeSpan" root).map
      (fun e => attrD e "End")).getD "")
    given := findTextDesc "GivenName" root
    surname := findTextDesc "Surname" root
    phone := pyStrip (((findDesc "Telephone" root).map
      (fun e => attrD e "PhoneNumber")).getD "")
    email := findTextDesc "Email" root
    total := totalOf (findDesc "Total" root)
    currency := pyStrip (((findDesc "Total" root).map
      (fun e => attrD e "CurrencyCode")).getD "") }

/-- Embedding of `parse_booking_info`: `none` models the empty dict `{}`
returned on empty input or parse failure. -/
def parse_booking_info (d : RawDoc) : Option BookingInfo :=
  if rawTruthy d then
    match parseXml d with
    | none => none
    | some root => some (parse_node root)
  else none

/-- The company test of `is_booking_com_xml` on a parsed root: company
code `19`, or `booking.com` contained in the lower-cased company text. -/
def booking_channel_of (root : XmlNode) : Bool :=
  match findCompanyName root with
  | none => false
  | some comp =>
    if pyStrip (attrD comp "Code") = "19" then true
    else pyIn "booking.com" (pyLower (pyStrip (comp.txt.getD "")))

/-- Embedding of `is_booking_com_xml` (src/main.py 407-440). -/
def is_booking_com_xml (d : RawDoc) : Bool :=
  if rawTruthy d then
    match parseXml d with
    | none => false
    | some root => booking_channel_of root
  else false

/-- The row dict built by `_kadir_row_from_xml` (src/main.py 151-204). -/
structure KadirRow where
  given : String
  surname : String
  tsStart : String
  tsEnd : String
  totalInc : String
  email : String
  phone : String
  chain : String
  addr : String
deriving DecidableEq

/-- The field extraction of `_kadir_row_from_xml` on a parsed root; the
`addr` column is the source's hard-coded constant. -/
def kadir_node (root : XmlNode) : KadirRow :=
  { given := findTextDesc "GivenName" root
    surname := findTextDesc "Surname" root
    tsStart := ((findDesc "TimeSpan" root).map (fun e => attrD e "Start")).getD ""
    tsEnd := ((findDesc "TimeSpan" root).map (fun e => attrD e "End")).getD ""
    totalInc := pyStrip
      (pyStrip (((findDesc "Total" root).map
          (fun e => attrD e "AmountIncludingMarkup")).getD "")
        ++ " " ++
        pyStrip (((findDesc "Total" root).map
          (fun e => attrD e "CurrencyCode")).getD ""))
    email := findTextDesc "Email" root
    phone := pyStrip (((findDesc "Telephone" root).map
      (fun e => attrD e "PhoneNumber")).getD "")
    chain := pyStrip (((findDesc "BasicPropertyInfo" root).map
      (fun e => attrD e "ChainCode")).getD "")
    addr := "Your reservation not confirmed" }

/-- Embedding of `_kadir_row_from_xml`: `None` when the document is
empty, not attributed to Booking.com, or unparseable; otherwise a row. -/
def kadir_row_from_xml (d : RawDoc) : Option KadirRow :=
  if rawTruthy d && is_booking_com_xml d then
    match parseXml d with
    | none => none
    | some root => some (kadir_node root)
  else none

/-- Rows kept per property in the Kadir CSV modes (`build_kadir_reports`
and `build_kadir_merged` both keep every non-`None` row). -/
def kadir_rows (docs : List RawDoc) : List KadirRow :=
  docs.filterMap kadir_row_from_xml

/-- The seven fields inspected by the phone-mode keep check
(src/main.py 520-521); `currency` is not among them. -/
def anyMain7 (r : BookingInfo) : Bool :=
  r.start ≠ "" || r.endD ≠ "" || r.given ≠ "" || r.surname ≠ "" ||
  r.phone ≠ "" || r.email ≠ "" || r.total ≠ ""

/-- The phone-mode (numbers/Word) keep decision for one document, from
`build_hotel_reports`: classification gate, then the seven-field check. -/
def hotel_keep_row (d : RawDoc) : Option BookingInfo :=
  if is_booking_com_xml d then
    match parse_booking_info d with
    | none => none
    | some r => if anyMain7 r then some r else none
  else none

/-- Kept rows of one property in phone mode. -/
def hotel_rows (docs : List RawDoc) : List BookingInfo :=
  docs.filterMap hotel_keep_row

/-- Excluded relay/aggregator domains (src/main.py 64-80). -/
def EXCLUDE_EMAIL_DOMAINS : List String :=
  ["@m.expediapartnercentral.com", "@agoda-messaging.com", "@guest.booking.com",
   "@makemytrip.com", "@cleartrip.com", "@easemytrip.com",
   "@hotelpartner@ixigo.com", "@travelplusapp.com", "@agoda.com", "@tbo.com",
   "@ixigo.com", "@grnconnect.com", "@galaxytravellers.com", "@guest.trip.com",
   "@riya.travel"]

/-- The two email-report sub-kinds (`email_kind` in the source). -/
inductive EmailKind where
  | booking
  | other
deriving DecidableEq

/-- The email-mode keep decision for one document, from
`build_email_reports` (src/main.py 557-573). -/
def email_keep_row (kind : EmailKind) (d : RawDoc) : Option BookingInfo :=
  match parse_booking_info d with
  | none => none
  | some r =>
    if pyLower (pyStrip r.email) = "" then none
    else
      match kind with
      | .booking =>
        if pyEndsWith (pyLower (pyStrip r.email)) "@guest.booking.com" then some r
        else none
      | .other =>
        if EXCLUDE_EMAIL_DOMAINS.any
            (fun dom => pyEndsWith (pyLower (pyStrip r.email)) dom) then none
        else some r

/-- Kept rows of one property in email mode. -/
def email_rows (kind : EmailKind) (docs : List RawDoc) : List BookingInfo :=
  docs.filterMap (email_keep_row kind)

/-- `name` as formatted by both TXT writers:
`f"{given.strip()} {surname.strip()}".strip()`. -/
def fullNameOf (r : BookingInfo) : String :=
  pyStrip (pyStrip r.given ++ " " ++ pyStrip r.surname)

/-- `price` in `write_hotel_txt`: unstripped amount and currency. -/
def priceOfPhone (r : BookingInfo) : String :=
  pyStrip (r.total ++ (if r.currency ≠ "" then " " ++ r.currency else ""))

/-- `price` in `write_hotel_emails_txt`: amount and currency stripped
before assembly. -/
def priceOfEmail (r : BookingInfo) : String :=
  pyStrip (pyStrip r.total ++
    (if pyStrip r.currency ≠ "" then " " ++ pyStrip r.currency else ""))

/-- One output line of `write_hotel_txt` (src/main.py 458):
`Hotel|Arrival|Departure|FullName|Phone|Price`. -/
def hotel_line (hotel : String) (r : BookingInfo) : String :=
  hotel ++ "|" ++ r.start ++ "|" ++ r.endD ++ "|" ++ fullNameOf r ++ "|" ++
    r.phone ++ "|" ++ priceOfPhone r

/-- One output line of `write_hotel_emails_txt` (src/main.py 486):
`Hotel|Arrival|Departure|FullName|Email|Phone|Price`. -/
def email_line (hotel : String) (r : BookingInfo) : String :=
  hotel ++ "|" ++ pyStrip r.start ++ "|" ++ pyStrip r.endD ++ "|" ++
    fullNameOf r ++ "|" ++ pyStrip r.email ++ "|" ++ pyStrip r.phone ++ "|" ++
    priceOfEmail r

/-- Per-property artifact in phone mode: `none` when no row is kept (the
source writes a file only under `if rows:`). -/
def build_hotel_report (hotel : String) (docs : List RawDoc) : Option (List String) :=
  if (hotel_rows docs).isEmpty then none
  else some ((hotel_rows docs).map (hotel_line hotel))

/-- Per-property artifact in email mode: `none` when no row is kept. -/
def build_email_report (kind : EmailKind) (hotel : String) (docs : List RawDoc) :
    Option (List String) :=
  if (email_rows kind docs).isEmpty then none
  else some ((email_rows kind docs).map (email_line hotel))

/-- Outcome of one HTTP attempt inside `post_json_with_retry_aiohttp`:
either a response (status, structured decode result if any, raw text), a
timeout, or a transport exception. -/
inductive HttpAttempt where
  | resp (status : ℕ) (decoded : Option Json) (text : String)
  | timeout
  | transportErr

/-- Value produced by one attempt, `none` on a failed attempt.  The
source's success test is `200 <= status < 400`; on success the body is
the structured decode when available and otherwise the raw text
(src/main.py 862-875). -/
def attemptValue : HttpAttempt → Option Json
  | .resp status decoded text =>
    if 200 ≤ status ∧ status < 400 then some (decoded.getD (Json.str text))
    else none
  | .timeout => none
  | .transportErr => none

/-- The retry loop of `post_json_with_retry_aiohttp` (src/main.py
848-892).  `fuel` is the number of attempts still allowed (including the
current one), `d` the current backoff delay, `i` the 1-based index of the
current attempt; `att` gives each attempt's outcome and `u i` the jitter
drawn before the retry that follows attempt `i`.  Returns the final value
(`none` models the Python `None` failure return) together with the list
of sleeps performed. -/
def retryAux (att : ℕ → HttpAttempt) (u : ℕ → ℚ) :
    ℕ → ℚ → ℕ → Option Json × List ℚ
  | 0, _, _ => (none, [])
  | 1, _, i => (attemptValue (att i), [])
  | n + 2, d, i =>
    match attemptValue (att i) with
    | some js => (some js, [])
    | none =>
      ((retryAux att u (n + 1) (d * 2) (i + 1)).1,
        (d + u i) :: (retryAux att u (n + 1) (d * 2) (i + 1)).2)

/-- `post_json_with_retry_aiohttp` with the session/url/payload stripped:
the delay starts at `baseDelay` and doubles after each sleep. -/
def post_json_with_retry (attempts : ℕ) (baseDelay : ℚ) (u : ℕ → ℚ)
    (att : ℕ → HttpAttempt) : Option Json × List ℚ :=
  retryAux att u attempts baseDelay 1

/-- `RETRY_ATTEMPTS` (src/main.py 42). -/
def RETRY_ATTEMPTS : ℕ := 3

/-- `RETRY_BASE_DELAY = 0.5` (src/main.py 43). -/
def RETRY_BASE_DELAY : ℚ := 1 / 2

/-- `RETRY_JITTER = 0.3` (src/main.py 44). -/
def RETRY_JITTER : ℚ := 3 / 10

/-- `BOOKLOG_RETRY_ATTEMPTS` (src/main.py 47). -/
def BOOKLOG_RETRY_ATTEMPTS : ℕ := 5

/-- `BOOKLOG_BASE_DELAY = 0.8` (src/main.py 49). -/
def BOOKLOG_BASE_DELAY : ℚ := 4 / 5

/-- `BOOKLOG_JITTER = 0.6` (src/main.py 48). -/
def BOOKLOG_JITTER : ℚ := 3 / 5

/-- `WRITERS` (src/main.py 52). -/
def WRITERS : ℕ := 8

/-- Extraction of the `xmlData` body in `api_get_xml_aio` (src/main.py
936-946) from the requester's result (`none` models `None`). -/
def extractXmlData (js : Option Json) : Json :=
  match js with
  | some (.obj fs) =>
    let v := pyGet fs "xmlData"
    if jsonTruthy v then v else Json.str ""
  | some (.arr (f :: _)) =>
    match f with
    | .obj fs =>
      let v := pyGet fs "xmlData"
      if jsonTruthy v then v else Json.str ""
    | _ => Json.str ""
  | some (.str s) => Json.str s
  | _ => Json.str ""

/-- Embedding of `fetch_single_token` (src/main.py 973-987) downstream of
the HTTP call: first component is the returned boolean, second the
document enqueued on the write queue (if any).  Every failure path of the
source (requester returned `None`, empty body) lands in `(false, none)`;
the function is total, modelling that no exception escapes. -/
def fetch_single_token (js : Option Json) : Bool × Option Json :=
  let xml := extractXmlData js
  if jsonTruthy xml then (true, some xml) else (false, none)

/-- An item on the persistence queue: a fetched document or the `None`
sentinel used for shutdown. -/
inductive QItem where
  | doc
  | sentinel
deriving DecidableEq

/-- Status of one writer worker. -/
inductive WStatus where
  | idle
  | busy
  | stopped
deriving DecidableEq

/-- State of the persistence queue system during the shutdown phase of
`run_job_and_reply` (src/main.py 1254-1258): the FIFO queue contents, the
`asyncio.Queue` unfinished-task counter (puts minus `task_done` calls),
how many sentinels the producer has enqueued, the worker pool, and
whether control has passed the `join()` barrier into aggregation. -/
structure QState where
  queue : List QItem
  unfinished : ℕ
  sentinelsPut : ℕ
  workers : List WStatus
  aggregated : Bool
deriving DecidableEq

/-- Is the worker currently writing a document? -/
def isBusy : WStatus → Bool
  | .idle => false
  | .busy => true
  | .stopped => false

/-- Has the worker consumed its sentinel and stopped? -/
def isStopped : WStatus → Bool
  | .idle => false
  | .busy => false
  | .stopped => true

/-- Is the queue item the shutdown sentinel? -/
def isSentinel : QItem → Bool
  | .doc => false
  | .sentinel => true

/-- Number of busy workers. -/
def busyCount (ws : List WStatus) : ℕ :=
  (ws.filter isBusy).length

/-- Number of stopped workers. -/
def stoppedCount (ws : List WStatus) : ℕ :=
  (ws.filter isStopped).length

/-- Number of sentinels still sitting in the queue. -/
def sentinelsIn (q : List QItem) : ℕ :=
  (q.filter isSentinel).length

/-- Transitions of the queue system with `N` writer workers.
`putSentinel` models one iteration of the producer's
`for _ in range(WRITERS): await write_queue.put(None)`; the take steps
model `writer_worker` (src/main.py 950-970): a worker takes the head
item, stops exactly on a sentinel (calling `task_done` for it) and
otherwise becomes busy writing; `finishDoc` is the worker's `task_done`
after a write; `aggregate` models control passing `write_queue.join()`
into report aggregation, which the source reaches only after all `N`
sentinel puts. -/
inductive SysStep (N : ℕ) : QState → QState → Prop
  | putSentinel (q u sp ws ag) : sp < N →
    SysStep N ⟨q, u, sp, ws, ag⟩ ⟨q ++ [QItem.sentinel], u + 1, sp + 1, ws, ag⟩
  | takeDoc (rest u sp pre post ag) :
    SysStep N ⟨QItem.doc :: rest, u, sp, pre ++ WStatus.idle :: post, ag⟩
      ⟨rest, u, sp, pre ++ WStatus.busy :: post, ag⟩
  | takeSentinel (rest u sp pre post ag) :
    SysStep N ⟨QItem.sentinel :: rest, u, sp, pre ++ WStatus.idle :: post, ag⟩
      ⟨rest, u - 1, sp, pre ++ WStatus.stopped :: post, ag⟩
  | finishDoc (q u sp pre post ag) :
    SysStep N ⟨q, u, sp, pre ++ WStatus.busy :: post, ag⟩
      ⟨q, u - 1, sp, pre ++ WStatus.idle :: post, ag⟩
  | aggregate (q u sp ws) : sp = N → u = 0 →
    SysStep N ⟨q, u, sp, ws, false⟩ ⟨q, u, sp, ws, true⟩

/-- Reachability for the queue transition system. -/
inductive Reach (N : ℕ) (init : QState) : QState → Prop
  | refl : Reach N init init
  | step {s s'} : Reach N init s → SysStep N s s' → Reach N init s'

/-- A legal state at the start of the shutdown phase: all fetch tasks are
done, no sentinel has been put yet, no worker has stopped, the unfinished
counter accounts for queued items and in-flight writes, and aggregation
has not begun. -/
structure InitOk (N : ℕ) (s : QState) : Prop where
  noSent : sentinelsIn s.queue = 0
  sp0 : s.sentinelsPut = 0
  nw : s.workers.length = N
  noStopped : stoppedCount s.workers = 0
  unf : s.unfinished = s.queue.length + busyCount s.workers
  agg : s.aggregated = false

/-- Inductive invariant of the queue system. -/
structure QInv (N : ℕ) (s : QState) : Prop where
  unf : s.unfinished = s.queue.length + busyCount s.workers
  sent : stoppedCount s.workers + sentinelsIn s.queue = s.sentinelsPut
  spLe : s.sentinelsPut ≤ N
  nw : s.workers.length = N
  agg : s.aggregated = true → s.sentinelsPut = N ∧ s.unfinished = 0

/-- Projection of a parse result onto the seven fields inspected by the
phone-mode keep check (everything except `currency`). -/
def main7 (r : BookingInfo) :
    String × String × String × String × String × String × String :=
  (r.start, r.endD, r.given, r.surname, r.phone, r.email, r.total)

/-- A minimal well-formed Booking.com document: classified (company code
`19`) but with no guest, stay, contact or amount data at all. -/
def bareBookingNode : XmlNode :=
  .mk "OTA_HotelResNotifRQ" [] none
    [.mk "Source" [] none
      [.mk "BookingChannel" [] none
        [.mk "CompanyName" [("Code", "19")] none []]]]

/-- `bareBookingNode` as a raw document. -/
def bareBookingDoc : RawDoc := .wellFormed bareBookingNode

/-- A classified document whose only non-empty extracted field is the
currency code. -/
def currencyOnlyNode : XmlNode :=
  .mk "OTA_HotelResNotifRQ" [] none
    [.mk "Source" [] none
      [.mk "BookingChannel" [] none
        [.mk "CompanyName" [("Code", "19")] none []]],
     .mk "Total" [("CurrencyCode", "EUR")] none []]

/-- `currencyOnlyNode` as a raw document. -/
def currencyOnlyDoc : RawDoc := .wellFormed currencyOnlyNode

/-- A document carrying only a guest email (no channel information). -/
def emailOnlyNode : XmlNode :=
  .mk "OTA_HotelResNotifRQ" [] none
    [.mk "Email" [] (some "ada@guest.booking.com") []]

/-- `emailOnlyNode` as a raw document. -/
def emailOnlyDoc : RawDoc := .wellFormed emailOnlyNode

/-- The same email together with a Booking.com classification element:
parses to the same record as `emailOnlyNode` but is channel-classified. -/
def emailPlusChannelNode : XmlNode :=
  .mk "OTA_HotelResNotifRQ" [] none
    [.mk "Email" [] (some "ada@guest.booking.com") [],
     .mk "Source" [] none
      [.mk "BookingChannel" [] none
        [.mk "CompanyName" [("Code", "19")] none []]]]

/-- `emailPlusChannelNode` as a raw document. -/
def emailPlusChannelDoc : RawDoc := .wellFormed emailPlusChannelNode

/-- A fully populated Booking.com document used to exercise the report
formatters. -/
def fullBookingNode : XmlNode :=
  .mk "OTA_HotelResNotifRQ" [] none
    [.mk "Source" [] none
      [.mk "BookingChannel" [] none
        [.mk "CompanyName" [("Code", "19")] (some "Booking.com") []]],
     .mk "TimeSpan" [("Start", "2025-09-12"), ("End", "2025-09-13")] none [],
     .mk "GivenName" [] (some "Ada") [],
     .mk "Surname" [] (some "Lovelace") [],
     .mk "Telephone" [("PhoneNumber", "+41791234567")] none [],
     .mk "Email" [] (some "ada@guest.booking.com") [],
     .mk "Total" [("AmountIncludingMarkup", "100.0"), ("CurrencyCode", "EUR")] none [],
     .mk "BasicPropertyInfo" [("ChainCode", "BK")] none []]

/-- `fullBookingNode` as a raw document. -/
def fullBookingDoc : RawDoc := .wellFormed fullBookingNode

/-- The record `parse_booking_info` extracts from `fullBookingNode`. -/
def fullRecord : BookingInfo :=
  { start := "2025-09-12", endD := "2025-09-13", given := "Ada",
    surname := "Lovelace", phone := "+41791234567",
    email := "ada@guest.booking.com", total := "100.0", currency := "EUR" }

/-- The all-empty record extracted from `currencyOnlyNode` except for its
currency code. -/
def currencyOnlyRecord : BookingInfo :=
  { start := "", endD := "", given := "", surname := "", phone := "",
    email := "", total := "", currency := "EUR" }

/-- A two-worker queue system at the start of the shutdown phase with an
empty queue. -/
def initTwo : QState :=
  ⟨[], 0, 0, [WStatus.idle, WStatus.idle], false⟩

/-- The two-worker system after both sentinels have been put, consumed,
and aggregation has begun. -/
def endTwo : QState :=
  ⟨[], 0, 2, [WStatus.stopped, WStatus.stopped], true⟩

end DH

namespace DH

/-! ## Helper lemmas -/

theorem stripChars_idem (l : List Char) :
    stripChars (stripChars l) = stripChars l := by
  show List.rdropWhile isWs (List.dropWhile isWs
      (List.rdropWhile isWs (List.dropWhile isWs l)))
    = List.rdropWhile isWs (List.dropWhile isWs l)
  have hX : List.dropWhile isWs (List.rdropWhile isWs (List.dropWhile isWs l))
      = List.rdropWhile isWs (List.dropWhile isWs l) := by
    rw [List.dropWhile_eq_self_iff]
    intro hl
    obtain ⟨t, ht⟩ := List.rdropWhile_prefix isWs (List.dropWhile isWs l)
    have h0 : 0 < (List.dropWhile isWs l).length := by
      rw [← ht, List.length_append]
      omega
    have hq : (List.dropWhile isWs l)[0]?
        = (List.rdropWhile isWs (List.dropWhile isWs l))[0]? := by
      conv_lhs => rw [← ht]
      exact List.getElem?_append_left hl
    rw [List.getElem?_eq_getElem h0, List.getElem?_eq_getElem hl,
      Option.some.injEq] at hq
    have hnot := List.dropWhile_get_zero_not isWs l h0
    rw [List.get_eq_getElem] at hnot
    rw [List.get_eq_getElem, ← hq]
    exact hnot
  rw [hX, List.rdropWhile_idempotent]

theorem pyStrip_idem (s : String) : pyStrip (pyStrip s) = pyStrip s :=
  congrArg String.mk (stripChars_idem s.data)

theorem truncQ_add_fract (a b k : ℕ) (hb : b < 10 ^ k) :
    truncQ ((a : ℚ) + (b : ℚ) / (10 : ℚ) ^ k) = (a : ℤ) := by
  have hk : (0 : ℚ) < (10 : ℚ) ^ k := by positivity
  have h0 : (0 : ℚ) ≤ (b : ℚ) / (10 : ℚ) ^ k := by positivity
  have h1 : (b : ℚ) / (10 : ℚ) ^ k < 1 := by
    rw [div_lt_one hk]
    exact_mod_cast hb
  have ha : (0 : ℚ) ≤ (a : ℚ) := Nat.cast_nonneg a
  unfold truncQ
  rw [if_pos (by linarith)]
  rw [Int.floor_eq_iff]
  constructor
  · push_cast
    linarith
  · push_cast
    linarith

theorem coerce_dec_fract (a b : ℕ) (s : String) (hb : b < 10)
    (hp : parseDecimal s = some ((a : ℚ) + (b : ℚ) / (10 : ℚ) ^ (1 : ℕ))) :
    coerceEchoToken (Json.str s) = (a : ℤ) := by
  have h1 : pyFloat (Json.str s) = parseDecimal s := rfl
  unfold coerceEchoToken
  rw [h1, hp]
  show truncQ ((a : ℚ) + (b : ℚ) / (10 : ℚ) ^ (1 : ℕ)) = (a : ℤ)
  exact truncQ_add_fract a b 1 (by simpa using hb)

/-! ## C1: token resolution -/

/-- C1 counterexample: a booking log whose single probed channel returns
two rows with the same `echoToken` yields the token twice — the resolved
collection is a list with a duplicate, not a deduplicated set. -/
theorem C1_cex :
    process_tokens [[("echoToken", Json.str "7")], [("echoToken", Json.str "7")]]
        = [7, 7] ∧
      ¬ (process_tokens
          [[("echoToken", Json.str "7")], [("echoToken", Json.str "7")]]).Nodup := by
  constructor
  · rfl
  · decide

/-- C1 (amended): per property the code probes a single channel code and
collects tokens into a list in booking-log row order; a nonzero token `t`
appears in the result exactly when some row coerces to it, and it appears
once per such row — duplicates are preserved, not collapsed. -/
theorem C1_token_list (rows : List BookRow) (t : ℤ) (ht : t ≠ 0) :
    (t ∈ process_tokens rows ↔
      ∃ row ∈ rows, coerceEchoToken (pyGet row "echoToken") = t) ∧
    (process_tokens rows).count t
      = rows.countP (fun row => coerceEchoToken (pyGet row "echoToken") == t) := by
  constructor
  · unfold process_tokens
    rw [List.mem_filterMap]
    constructor
    · rintro ⟨row, hrow, hf⟩
      by_cases hz : coerceEchoToken (pyGet row "echoToken") = 0
      · rw [if_pos hz] at hf
        cases hf
      · rw [if_neg hz] at hf
        exact ⟨row, hrow, Option.some.inj hf⟩
    · rintro ⟨row, hrow, hf⟩
      refine ⟨row, hrow, ?_⟩
      have hz : coerceEchoToken (pyGet row "echoToken") ≠ 0 := by
        rw [hf]; exact ht
      rw [if_neg hz, hf]
  · induction rows with
    | nil => rfl
    | cons row rows ih =>
      unfold process_tokens at ih ⊢
      rw [List.filterMap_cons, List.countP_cons]
      by_cases hz : coerceEchoToken (pyGet row "echoToken") = 0
      · have hne : (coerceEchoToken (pyGet row "echoToken") == t) = false := by
          rw [beq_eq_false_iff_ne, hz]
          exact fun h => ht h.symm
        rw [if_pos hz, hne]
        simpa using ih
      · rw [if_neg hz, List.count_cons]
        by_cases hteq : coerceEchoToken (pyGet row "echoToken") = t
        · have hb : (coerceEchoToken (pyGet row "echoToken") == t) = true := by
            rw [beq_iff_eq]; exact hteq
          rw [hb, ih]
        · have hb : (coerceEchoToken (pyGet row "echoToken") == t) = false := by
            rw [beq_eq_false_iff_ne]; exact hteq
          rw [hb, ih]

/-- C1 witness: the theorem applied to the duplicate-row booking log and
token `7`. -/
theorem C1_witness :
    (7 : ℤ) ≠ 0 ∧
    ((7 : ℤ) ∈ process_tokens
        [[("echoToken", Json.str "7")], [("echoToken", Json.str "7")]] ↔
      ∃ row ∈ [[("echoToken", Json.str "7")], [("echoToken", Json.str "7")]],
        coerceEchoToken (pyGet row "echoToken") = 7) ∧
    (process_tokens
        [[("echoToken", Json.str "7")], [("echoToken", Json.str "7")]]).count 7
      = ([[("echoToken", Json.str "7")], [("echoToken", Json.str "7")]] :
          List BookRow).countP
          (fun row => coerceEchoToken (pyGet row "echoToken") == 7) :=
  ⟨by decide,
   (C1_token_list _ 7 (by decide)).1,
   (C1_token_list _ 7 (by decide)).2⟩

/-! ## C9: echoToken coercion -/

/-- C9: the token field is coerced with `int(float(...))`: float-encoded
strings such as `"123.0"` are accepted, fractional parts such as
`"123.9"` are truncated to `123`, and a row whose token is missing
(`None`), non-numeric, or coerces to zero contributes no token. -/
theorem C9_token_coercion :
    coerceEchoToken (Json.str "123.0") = 123 ∧
    coerceEchoToken (Json.str "123.9") = 123 ∧
    (∀ row : BookRow, pyGet row "echoToken" = Json.null →
      process_tokens [row] = []) ∧
    (∀ row : BookRow, pyFloat (pyGet row "echoToken") = none →
      process_tokens [row] = []) ∧
    (∀ row : BookRow, coerceEchoToken (pyGet row "echoToken") = 0 →
      process_tokens [row] = []) := by
  refine ⟨?_, ?_, ?_, ?_, ?_⟩
  · exact coerce_dec_fract 123 0 "123.0" (by norm_num) rfl
  · exact coerce_dec_fract 123 9 "123.9" (by norm_num) rfl
  · intro row h
    have : coerceEchoToken (pyGet row "echoToken") = 0 := by
      rw [h]; rfl
    simp [process_tokens, this]
  · intro row h
    have : coerceEchoToken (pyGet row "echoToken") = 0 := by
      unfold coerceEchoToken
      rw [h]
    simp [process_tokens, this]
  · intro row h
    simp [process_tokens, h]

/-- C9 witness: the coercion conjuncts are closed; the conditional
conjuncts applied to a concrete row with a non-numeric token. -/
theorem C9_witness :
    pyFloat (pyGet [("echoToken", Json.str "N/A")] "echoToken") = none ∧
    process_tokens [[("echoToken", Json.str "N/A")]] = [] :=
  ⟨by decide, C9_token_coercion.2.2.2.1 [("echoToken", Json.str "N/A")] (by decide)⟩

/-! ## Retry-loop lemmas -/

theorem retryAux_some_fst (att : ℕ → HttpAttempt) (u : ℕ → ℚ) (m : ℕ) (d : ℚ)
    (i : ℕ) (js : Json) (hv : attemptValue (att i) = some js) :
    (retryAux att u (m + 2) d i).1 = some js := by
  rw [retryAux, hv]

theorem retryAux_some_snd (att : ℕ → HttpAttempt) (u : ℕ → ℚ) (m : ℕ) (d : ℚ)
    (i : ℕ) (js : Json) (hv : attemptValue (att i) = some js) :
    (retryAux att u (m + 2) d i).2 = [] := by
  rw [retryAux, hv]

theorem retryAux_none_fst (att : ℕ → HttpAttempt) (u : ℕ → ℚ) (m : ℕ) (d : ℚ)
    (i : ℕ) (hv : attemptValue (att i) = none) :
    (retryAux att u (m + 2) d i).1 = (retryAux att u (m + 1) (d * 2) (i + 1)).1 := by
  rw [retryAux, hv]

theorem retryAux_none_snd (att : ℕ → HttpAttempt) (u : ℕ → ℚ) (m : ℕ) (d : ℚ)
    (i : ℕ) (hv : attemptValue (att i) = none) :
    (retryAux att u (m + 2) d i).2
      = (d + u i) :: (retryAux att u (m + 1) (d * 2) (i + 1)).2 := by
  rw [retryAux, hv]

theorem retry_sleeps_get (att : ℕ → HttpAttempt) (u : ℕ → ℚ) :
    ∀ (n : ℕ) (d : ℚ) (i k : ℕ),
      k < ((retryAux att u n d i).2).length →
      ((retryAux att u n d i).2).get? k = some (d * 2 ^ k + u (i + k)) := by
  intro n
  induction n using Nat.strong_induction_on with
  | _ n ih =>
    match n with
    | 0 => intro d i k h; simp [retryAux] at h
    | 1 => intro d i k h; simp [retryAux] at h
    | m + 2 =>
      intro d i k h
      cases hv : attemptValue (att i) with
      | some js =>
        rw [retryAux_some_snd att u m d i js hv] at h
        simp at h
      | none =>
        rw [retryAux_none_snd att u m d i hv] at h ⊢
        rw [List.length_cons] at h
        cases k with
        | zero =>
          simp only [List.get?_cons_zero, Option.some.injEq, pow_zero, mul_one,
            Nat.add_zero]
        | succ k' =>
          rw [List.get?_cons_succ]
          have hlen : k' < ((retryAux att u (m + 1) (d * 2) (i + 1)).2).length := by
            omega
          rw [ih (m + 1) (by omega) (d * 2) (i + 1) k' hlen]
          have harg : i + 1 + k' = i + (k' + 1) := by omega
          rw [harg]
          congr 1
          ring

theorem retry_success (att : ℕ → HttpAttempt) (u : ℕ → ℚ) :
    ∀ (n : ℕ) (d : ℚ) (i NN : ℕ) (v : Json),
      i ≤ NN → NN < i + n →
      (∀ m, i ≤ m → m < NN → attemptValue (att m) = none) →
      attemptValue (att NN) = some v →
      (retryAux att u n d i).1 = some v := by
  intro n
  induction n using Nat.strong_induction_on with
  | _ n ih =>
    match n with
    | 0 =>
      intro d i NN v h1 h2 _ _
      omega
    | 1 =>
      intro d i NN v h1 h2 _ hs
      have : NN = i := by omega
      subst this
      rw [retryAux, hs]
    | m + 2 =>
      intro d i NN v h1 h2 hfail hs
      by_cases hi : i = NN
      · subst hi
        exact retryAux_some_fst att u m d i v hs
      · have hlt : i < NN := by omega
        rw [retryAux_none_fst att u m d i (hfail i (le_refl i) hlt)]
        exact ih (m + 1) (by omega) (d * 2) (i + 1) NN v (by omega) (by omega)
          (fun m hm hm2 => hfail m (by omega) hm2) hs

theorem retry_all_fail (att : ℕ → HttpAttempt) (u : ℕ → ℚ) :
    ∀ (n : ℕ) (d : ℚ) (i : ℕ),
      (∀ m, i ≤ m → m < i + n → attemptValue (att m) = none) →
      (retryAux att u n d i).1 = none ∧
      ((retryAux att u n d i).2).length = n - 1 := by
  intro n
  induction n using Nat.strong_induction_on with
  | _ n ih =>
    match n with
    | 0 => intro d i _; exact ⟨rfl, rfl⟩
    | 1 =>
      intro d i hfail
      rw [retryAux, hfail i (le_refl i) (by omega)]
      exact ⟨rfl, rfl⟩
    | m + 2 =>
      intro d i hfail
      have hv := hfail i (le_refl i) (by omega)
      have := ih (m + 1) (by omega) (d * 2) (i + 1)
        (fun k hk hk2 => hfail k (by omega) (by omega))
      constructor
      · rw [retryAux_none_fst att u m d i hv]
        exact this.1
      · rw [retryAux_none_snd att u m d i hv, List.length_cons, this.2]
        omega

/-! ## C2: retry backoff policy -/

/-- C2: for each of the program's two requester configurations
(`RETRY_*` for document fetches, `BOOKLOG_*` for channel discovery) and
any jitter draws bounded by the configured jitter, the `k`-th sleep is
`base * 2^(k-1)` plus the `k`-th draw, the sleeps are nondecreasing, a
mock endpoint failing `N-1` times then succeeding within the attempt
budget makes the call return that success, and failing every attempt
makes it return the failure value `none` (no exception is modelled:
the loop catches everything). -/
theorem C2_retry_backoff (M : ℕ) (b j : ℚ) (u : ℕ → ℚ) (att : ℕ → HttpAttempt)
    (hcfg : (M = RETRY_ATTEMPTS ∧ b = RETRY_BASE_DELAY ∧ j = RETRY_JITTER) ∨
      (M = BOOKLOG_RETRY_ATTEMPTS ∧ b = BOOKLOG_BASE_DELAY ∧ j = BOOKLOG_JITTER))
    (hu : ∀ k, 0 ≤ u k ∧ u k ≤ j) :
    (∀ k, k < ((post_json_with_retry M b u att).2).length →
      ((post_json_with_retry M b u att).2).get? k = some (b * 2 ^ k + u (1 + k))) ∧
    List.Chain' (fun x y => x ≤ y) ((post_json_with_retry M b u att).2) ∧
    (∀ (NN : ℕ) (v : Json), 1 ≤ NN → NN ≤ M →
      (∀ m, 1 ≤ m → m < NN → attemptValue (att m) = none) →
      attemptValue (att NN) = some v →
      (post_json_with_retry M b u att).1 = some v) ∧
    ((∀ m, 1 ≤ m → m ≤ M → attemptValue (att m) = none) →
      (post_json_with_retry M b u att).1 = none) := by
  have hb0 : 0 ≤ b := by
    rcases hcfg with ⟨_, hb, _⟩ | ⟨_, hb, _⟩ <;>
      rw [hb] <;> norm_num [RETRY_BASE_DELAY, BOOKLOG_BASE_DELAY]
  have hjb : j ≤ b := by
    rcases hcfg with ⟨_, hb, hj⟩ | ⟨_, hb, hj⟩ <;> rw [hb, hj] <;>
      norm_num [RETRY_BASE_DELAY, RETRY_JITTER, BOOKLOG_BASE_DELAY, BOOKLOG_JITTER]
  have hget : ∀ k, k < ((post_json_with_retry M b u att).2).length →
      ((post_json_with_retry M b u att).2).get? k = some (b * 2 ^ k + u (1 + k)) :=
    retry_sleeps_get att u M b 1
  refine ⟨fun k hk => hget k hk, ?_, ?_, ?_⟩
  · rw [List.chain'_iff_get]
    intro k hk
    have hk1 : k < ((post_json_with_retry M b u att).2).length := by omega
    have hk2 : k + 1 < ((post_json_with_retry M b u att).2).length := by omega
    have e1 : ((post_json_with_retry M b u att).2).get ⟨k, hk1⟩
        = b * 2 ^ k + u (1 + k) := by
      have := hget k hk1
      rwa [List.get?_eq_get hk1, Option.some.injEq] at this
    have e2 : ((post_json_with_retry M b u att).2).get ⟨k + 1, hk2⟩
        = b * 2 ^ (k + 1) + u (1 + (k + 1)) := by
      have := hget (k + 1) hk2
      rwa [List.get?_eq_get hk2, Option.some.injEq] at this
    show ((post_json_with_retry M b u att).2).get ⟨k, hk1⟩
      ≤ ((post_json_with_retry M b u att).2).get ⟨k + 1, hk2⟩
    rw [e1, e2]
    have h2k : (1 : ℚ) ≤ 2 ^ k := one_le_pow₀ (by norm_num)
    have hu1 := hu (1 + k)
    have hu2 := hu (1 + (k + 1))
    have hbk : b ≤ b * 2 ^ k := by
      calc b = b * 1 := by ring
      _ ≤ b * 2 ^ k := by
        apply mul_le_mul_of_nonneg_left h2k hb0
    have he : b * 2 ^ (k + 1) = b * 2 ^ k + b * 2 ^ k := by ring
    rw [he]
    have hub : u (1 + k) ≤ b * 2 ^ k := le_trans (le_trans hu1.2 hjb) hbk
    linarith [hu2.1]
  · intro NN v h1 h2 hfail hs
    exact retry_success att u M b 1 NN v h1 (by omega) hfail hs
  · intro hfail
    exact (retry_all_fail att u M b 1 (fun m hm hm2 => hfail m hm (by omega))).1

/-- C2 witness: the theorem at the document-fetch configuration, zero
jitter draws, and an endpoint that times out twice then succeeds. -/
theorem C2_witness :
    (∀ _k : ℕ, 0 ≤ (0 : ℚ) ∧ (0 : ℚ) ≤ RETRY_JITTER) ∧
    (post_json_with_retry RETRY_ATTEMPTS RETRY_BASE_DELAY (fun _ => 0)
      (fun i => if i < 3 then HttpAttempt.timeout
        else HttpAttempt.resp 200 (some (Json.str "ok")) "t")).1
      = some (Json.str "ok") := by
  have hu : ∀ _ : ℕ, 0 ≤ (0 : ℚ) ∧ (0 : ℚ) ≤ RETRY_JITTER := by
    intro k
    norm_num [RETRY_JITTER]
  refine ⟨hu, ?_⟩
  refine (C2_retry_backoff RETRY_ATTEMPTS RETRY_BASE_DELAY RETRY_JITTER (fun _ => 0)
    (fun i => if i < 3 then HttpAttempt.timeout
      else HttpAttempt.resp 200 (some (Json.str "ok")) "t")
    (Or.inl ⟨rfl, rfl, rfl⟩) hu).2.2.1 3 (Json.str "ok") (by norm_num)
    (by norm_num [RETRY_ATTEMPTS]) ?_ ?_
  · intro m h1 h2
    have hm : m < 3 := h2
    simp [hm, attemptValue]
  · show attemptValue (HttpAttempt.resp 200 (some (Json.str "ok")) "t")
      = some (Json.str "ok")
    rfl

/-! ## C3: status-range handling -/

/-- C3 counterexample: a `301` response is not in the 2xx range, yet the
requester treats it as an immediate success (decoded body returned, no
retry sleep performed) because the source's success test is
`200 <= status < 400`. -/
theorem C3_cex :
    ¬ (200 ≤ 301 ∧ 301 < 300) ∧
    post_json_with_retry RETRY_ATTEMPTS RETRY_BASE_DELAY (fun _ => 0)
        (fun _ => HttpAttempt.resp 301 (some (Json.str "ok")) "body")
      = (some (Json.str "ok"), []) := by
  constructor
  · decide
  · rfl

/-- C3 (amended): a response whose status is outside `200..399` is a
failed attempt — retried while attempts remain (one sleep per remaining
attempt) and converted to the failure value `none` after the last
attempt; a `2xx` or `3xx` response yields a success carrying the decoded
body, or the raw text when structured decoding failed. -/
theorem C3_status_handling (M : ℕ) (b : ℚ) (u : ℕ → ℚ)
    (att : ℕ → HttpAttempt) :
    (∀ s dec txt, ¬ (200 ≤ s ∧ s < 400) →
      attemptValue (.resp s dec txt) = none) ∧
    (∀ s dec txt, 200 ≤ s → s < 400 →
      attemptValue (.resp s dec txt) = some (dec.getD (Json.str txt))) ∧
    (∀ s txt, 200 ≤ s → s < 400 →
      attemptValue (.resp s none txt) = some (Json.str txt)) ∧
    ((∀ m, 1 ≤ m → m ≤ M → attemptValue (att m) = none) →
      (post_json_with_retry M b u att).1 = none ∧
      ((post_json_with_retry M b u att).2).length = M - 1) := by
  refine ⟨?_, ?_, ?_, ?_⟩
  · intro s dec txt h
    rw [attemptValue, if_neg h]
  · intro s dec txt h1 h2
    rw [attemptValue, if_pos ⟨h1, h2⟩]
  · intro s txt h1 h2
    rw [attemptValue, if_pos ⟨h1, h2⟩]
    rfl
  · intro hfail
    exact retry_all_fail att u M b 1 (fun m hm hm2 => hfail m hm (by omega))

/-- C3 witness: the amended theorem at a run of three `500` responses
under the document-fetch configuration: failure value, two sleeps. -/
theorem C3_witness :
    (∀ m, 1 ≤ m → m ≤ RETRY_ATTEMPTS →
      attemptValue ((fun _ => HttpAttempt.resp 500 none "err") m) = none) ∧
    (post_json_with_retry RETRY_ATTEMPTS RETRY_BASE_DELAY (fun _ => 0)
        (fun _ => HttpAttempt.resp 500 none "err")).1 = none ∧
    ((post_json_with_retry RETRY_ATTEMPTS RETRY_BASE_DELAY (fun _ => 0)
        (fun _ => HttpAttempt.resp 500 none "err")).2).length
      = RETRY_ATTEMPTS - 1 := by
  have hfail : ∀ m, 1 ≤ m → m ≤ RETRY_ATTEMPTS →
      attemptValue ((fun _ => HttpAttempt.resp 500 none "err") m) = none := by
    intro m _ _
    rfl
  exact ⟨hfail,
    (C3_status_handling RETRY_ATTEMPTS RETRY_BASE_DELAY (fun _ => 0)
      (fun _ => HttpAttempt.resp 500 none "err")).2.2.2 hfail⟩

/-! ## C4: single-token fetch -/

/-- C4 counterexample: a `200` response whose body fails structured
decoding is not treated as "no document": the requester falls back to
the raw text, `api_get_xml_aio` accepts the bare string as the XML body,
and `fetch_single_token` returns `True` and enqueues it. -/
theorem C4_cex :
    fetch_single_token
        (post_json_with_retry RETRY_ATTEMPTS RETRY_BASE_DELAY (fun _ => 0)
          (fun _ => HttpAttempt.resp 200 none "junk")).1
      = (true, some (Json.str "junk")) := by
  rfl

/-- C4 (amended): `fetch_single_token` is a total boolean-returning
function (no exception escapes); it returns `True` exactly when a truthy
document body was extracted, and exactly then an item is enqueued; every
enqueued body is truthy (non-empty); a requester failure (`none`)
uniformly yields `False` with nothing enqueued.  (Malformed JSON with
non-empty raw text is not a failure: the raw text becomes the body.) -/
theorem C4_fetch_contract :
    (∀ js, (fetch_single_token js).1 = jsonTruthy (extractXmlData js)) ∧
    (∀ js, (fetch_single_token js).1 = true ↔ (fetch_single_token js).2 ≠ none) ∧
    (∀ js x, (fetch_single_token js).2 = some x → jsonTruthy x = true) ∧
    fetch_single_token none = (false, none) := by
  refine ⟨?_, ?_, ?_, rfl⟩
  · intro js
    unfold fetch_single_token
    by_cases h : jsonTruthy (extractXmlData js)
    · rw [if_pos h, h]
    · rw [if_neg h]
      simp only [Bool.not_eq_true] at h
      rw [h]
  · intro js
    unfold fetch_single_token
    by_cases h : jsonTruthy (extractXmlData js)
    · rw [if_pos h]
      simp
    · rw [if_neg h]
      simp only [Bool.not_eq_true] at h
      simp [h]
  · intro js x hx
    unfold fetch_single_token at hx
    by_cases h : jsonTruthy (extractXmlData js)
    · rw [if_pos h] at hx
      simp only at hx
      rw [← Option.some.inj hx]
      exact h
    · rw [if_neg h] at hx
      cases hx

/-- C4 witness: the contract applied to a concrete successful payload. -/
theorem C4_witness :
    (fetch_single_token (some (Json.obj [("xmlData", Json.str "<x/>")]))).2
        = some (Json.str "<x/>") ∧
    jsonTruthy (Json.str "<x/>") = true :=
  ⟨by rfl,
   C4_fetch_contract.2.2.1 (some (Json.obj [("xmlData", Json.str "<x/>")]))
     (Json.str "<x/>") (by rfl)⟩

/-! ## Keep-row dissection lemmas -/

theorem parse_booking_info_none (d : RawDoc) (h : parseXml d = none) :
    parse_booking_info d = none := by
  cases d with
  | emptyDoc => rfl
  | malformed => rfl
  | junkWrapped t => simp [parseXml] at h
  | wellFormed t => simp [parseXml] at h

theorem parse_booking_info_some (d : RawDoc) (t : XmlNode)
    (h : parseXml d = some t) :
    parse_booking_info d = some (parse_node t) := by
  cases d with
  | emptyDoc => simp [parseXml] at h
  | malformed => simp [parseXml] at h
  | junkWrapped u =>
    have hu : u = t := Option.some.inj h
    subst hu
    rfl
  | wellFormed u =>
    have hu : u = t := Option.some.inj h
    subst hu
    rfl

theorem is_booking_none (d : RawDoc) (h : parseXml d = none) :
    is_booking_com_xml d = false := by
  cases d with
  | emptyDoc => rfl
  | malformed => rfl
  | junkWrapped t => simp [parseXml] at h
  | wellFormed t => simp [parseXml] at h

theorem is_booking_some (d : RawDoc) (t : XmlNode) (h : parseXml d = some t) :
    is_booking_com_xml d = booking_channel_of t := by
  cases d with
  | emptyDoc => simp [parseXml] at h
  | malformed => simp [parseXml] at h
  | junkWrapped u =>
    have hu : u = t := Option.some.inj h
    subst hu
    rfl
  | wellFormed u =>
    have hu : u = t := Option.some.inj h
    subst hu
    rfl

theorem kadir_row_none (d : RawDoc) (h : parseXml d = none) :
    kadir_row_from_xml d = none := by
  have hb : is_booking_com_xml d = false := is_booking_none d h
  cases d with
  | emptyDoc => rfl
  | malformed => rfl
  | junkWrapped t => simp [parseXml] at h
  | wellFormed t => simp [parseXml] at h

theorem kadir_row_eq (d : RawDoc) (t : XmlNode) (h : parseXml d = some t) :
    kadir_row_from_xml d =
      if booking_channel_of t = true then some (kadir_node t) else none := by
  cases d with
  | emptyDoc => simp [parseXml] at h
  | malformed => simp [parseXml] at h
  | junkWrapped u =>
    have hu : u = t := Option.some.inj h
    subst hu
    rfl
  | wellFormed u =>
    have hu : u = t := Option.some.inj h
    subst hu
    rfl

theorem parseXml_cases (d : RawDoc) :
    parseXml d = none ∨ ∃ t, parseXml d = some t := by
  cases hp : parseXml d with
  | none => exact Or.inl rfl
  | some t => exact Or.inr ⟨t, rfl⟩

theorem hotel_keep_row_some (d : RawDoc) (r : BookingInfo)
    (h : hotel_keep_row d = some r) :
    is_booking_com_xml d = true ∧ parse_booking_info d = some r ∧
      anyMain7 r = true := by
  rcases parseXml_cases d with hp | ⟨t, hp⟩
  · rw [hotel_keep_row, is_booking_none d hp] at h
    simp at h
  · have heq : hotel_keep_row d =
        if booking_channel_of t = true then
          (if anyMain7 (parse_node t) = true then some (parse_node t) else none)
        else none := by
      rw [hotel_keep_row, is_booking_some d t hp, parse_booking_info_some d t hp]
    rw [heq] at h
    by_cases hb : booking_channel_of t = true
    · rw [if_pos hb] at h
      by_cases ha : anyMain7 (parse_node t) = true
      · rw [if_pos ha] at h
        rw [← Option.some.inj h]
        exact ⟨by rw [is_booking_some d t hp]; exact hb,
          by rw [parse_booking_info_some d t hp],
          ha⟩
      · rw [if_neg ha] at h
        cases h
    · rw [if_neg hb] at h
      cases h

theorem email_keep_row_none (kind : EmailKind) (d : RawDoc)
    (hp : parse_booking_info d = none) : email_keep_row kind d = none := by
  rw [email_keep_row, hp]

theorem email_keep_booking_eq (d : RawDoc) (r : BookingInfo)
    (hp : parse_booking_info d = some r) :
    email_keep_row .booking d =
      if pyLower (pyStrip r.email) = "" then none
      else if pyEndsWith (pyLower (pyStrip r.email)) "@guest.booking.com" then
        some r
      else none := by
  rw [email_keep_row, hp]

theorem email_keep_other_eq (d : RawDoc) (r : BookingInfo)
    (hp : parse_booking_info d = some r) :
    email_keep_row .other d =
      if pyLower (pyStrip r.email) = "" then none
      else if EXCLUDE_EMAIL_DOMAINS.any
          (fun dom => pyEndsWith (pyLower (pyStrip r.email)) dom) then none
      else some r := by
  rw [email_keep_row, hp]

theorem email_keep_row_some (kind : EmailKind) (d : RawDoc) (r : BookingInfo)
    (h : email_keep_row kind d = some r) :
    parse_booking_info d = some r ∧ pyLower (pyStrip r.email) ≠ "" := by
  cases hp : parse_booking_info d with
  | none => rw [email_keep_row_none kind d hp] at h; cases h
  | some r' =>
    by_cases he : pyLower (pyStrip r'.email) = ""
    · cases kind with
      | booking => rw [email_keep_booking_eq d r' hp, if_pos he] at h; cases h
      | other => rw [email_keep_other_eq d r' hp, if_pos he] at h; cases h
    · cases kind with
      | booking =>
        rw [email_keep_booking_eq d r' hp, if_neg he] at h
        by_cases hb : pyEndsWith (pyLower (pyStrip r'.email))
            "@guest.booking.com" = true
        · rw [if_pos hb] at h
          cases Option.some.inj h
          exact ⟨rfl, he⟩
        · rw [if_neg hb] at h
          cases h
      | other =>
        rw [email_keep_other_eq d r' hp, if_neg he] at h
        by_cases hx : EXCLUDE_EMAIL_DOMAINS.any
            (fun dom => pyEndsWith (pyLower (pyStrip r'.email)) dom) = true
        · rw [if_pos hx] at h
          cases h
        · rw [if_neg hx] at h
          cases Option.some.inj h
          exact ⟨rfl, he⟩

theorem kadir_row_some (d : RawDoc) (r : KadirRow)
    (h : kadir_row_from_xml d = some r) :
    is_booking_com_xml d = true ∧ parseXml d ≠ none := by
  rcases parseXml_cases d with hp | ⟨t, hp⟩
  · rw [kadir_row_none d hp] at h
    cases h
  · rw [kadir_row_eq d t hp] at h
    by_cases hb : booking_channel_of t = true
    · refine ⟨by rw [is_booking_some d t hp]; exact hb, ?_⟩
      rw [hp]
      exact fun hc => Option.noConfusion hc
    · rw [if_neg hb] at h
      cases h

/-! ## C6: no empty report rows -/

/-- C6 counterexample: in the Kadir CSV mode, a classified, parseable
document with every extracted field empty still produces a report row
(only its constant `Address` column is non-empty), so the claim fails
for that mode. -/
theorem C6_cex :
    is_booking_com_xml bareBookingDoc = true ∧
    kadir_rows [bareBookingDoc]
      = [{ given := "", surname := "", tsStart := "", tsEnd := "",
           totalInc := "", email := "", phone := "", chain := "",
           addr := "Your reservation not confirmed" }] := by
  constructor
  · rfl
  · rfl

/-- C6 (amended): a document that fails to parse even after the prefix
strip yields no row in any mode; in the phone mode every emitted row has
one of the seven inspected fields non-empty, and in the email modes a
non-empty email; but in the Kadir CSV mode a classified, parseable
document yields a row regardless of whether any extracted field is
non-empty. -/
theorem C6_no_empty_rows :
    (∀ d, parseXml d = none →
      hotel_keep_row d = none ∧ (∀ kind, email_keep_row kind d = none) ∧
      kadir_row_from_xml d = none) ∧
    (∀ d r, hotel_keep_row d = some r → anyMain7 r = true) ∧
    (∀ kind d r, email_keep_row kind d = some r →
      pyLower (pyStrip r.email) ≠ "") ∧
    (∀ d r, kadir_row_from_xml d = some r →
      is_booking_com_xml d = true ∧ parseXml d ≠ none) := by
  refine ⟨?_, ?_, ?_, ?_⟩
  · intro d h
    cases d with
    | emptyDoc => exact ⟨rfl, fun kind => rfl, rfl⟩
    | malformed => exact ⟨rfl, fun kind => rfl, rfl⟩
    | junkWrapped t => simp [parseXml] at h
    | wellFormed t => simp [parseXml] at h
  · intro d r h
    exact (hotel_keep_row_some d r h).2.2
  · intro kind d r h
    exact (email_keep_row_some kind d r h).2
  · intro d r h
    exact kadir_row_some d r h

/-- C6 witness: the amended theorem applied to an unparseable document. -/
theorem C6_witness :
    parseXml RawDoc.malformed = none ∧
    hotel_keep_row RawDoc.malformed = none ∧
    email_keep_row EmailKind.other RawDoc.malformed = none ∧
    kadir_row_from_xml RawDoc.malformed = none :=
  ⟨rfl, (C6_no_empty_rows.1 RawDoc.malformed rfl).1,
   (C6_no_empty_rows.1 RawDoc.malformed rfl).2.1 EmailKind.other,
   (C6_no_empty_rows.1 RawDoc.malformed rfl).2.2⟩

/-! ## C7: email-mode filtering -/

/-- C7: in the email mode a record is kept exactly when its parsed email
is non-empty (lower-cased, stripped) and passes the sub-filter — suffix
match on `@guest.booking.com` for the Booking kind, membership in no
excluded domain for the other kind — and the decision is a function of
the parse result alone, independent of channel classification. -/
theorem C7_email_mode (kind : EmailKind) (d : RawDoc) (r : BookingInfo) :
    (email_keep_row .booking d = some r ↔
      parse_booking_info d = some r ∧
      pyLower (pyStrip r.email) ≠ "" ∧
      pyEndsWith (pyLower (pyStrip r.email)) "@guest.booking.com" = true) ∧
    (email_keep_row .other d = some r ↔
      parse_booking_info d = some r ∧
      pyLower (pyStrip r.email) ≠ "" ∧
      ∀ dom ∈ EXCLUDE_EMAIL_DOMAINS,
        pyEndsWith (pyLower (pyStrip r.email)) dom = false) ∧
    (∀ d', parse_booking_info d = parse_booking_info d' →
      email_keep_row kind d = email_keep_row kind d') := by
  refine ⟨?_, ?_, ?_⟩
  · constructor
    · intro h
      obtain ⟨hp, he⟩ := email_keep_row_some .booking d r h
      rw [email_keep_booking_eq d r hp, if_neg he] at h
      by_cases hb : pyEndsWith (pyLower (pyStrip r.email))
          "@guest.booking.com" = true
      · exact ⟨hp, he, hb⟩
      · rw [if_neg hb] at h
        cases h
    · rintro ⟨hp, he, hb⟩
      rw [email_keep_booking_eq d r hp, if_neg he, if_pos hb]
  · constructor
    · intro h
      obtain ⟨hp, he⟩ := email_keep_row_some .other d r h
      rw [email_keep_other_eq d r hp, if_neg he] at h
      by_cases hx : EXCLUDE_EMAIL_DOMAINS.any
          (fun dom => pyEndsWith (pyLower (pyStrip r.email)) dom) = true
      · rw [if_pos hx] at h
        cases h
      · refine ⟨hp, he, ?_⟩
        intro dom hdom
        cases hval : pyEndsWith (pyLower (pyStrip r.email)) dom with
        | false => rfl
        | true => exact absurd (List.any_eq_true.mpr ⟨dom, hdom, hval⟩) hx
    · rintro ⟨hp, he, hall⟩
      have hx : ¬ (EXCLUDE_EMAIL_DOMAINS.any
          (fun dom => pyEndsWith (pyLower (pyStrip r.email)) dom) = true) := by
        intro hany
        rw [List.any_eq_true] at hany
        obtain ⟨dom, hdom, hval⟩ := hany
        have hval' : pyEndsWith (pyLower (pyStrip r.email)) dom = true := hval
        rw [hall dom hdom] at hval'
        cases hval'
      rw [email_keep_other_eq d r hp, if_neg he, if_neg hx]
  · intro d' hpp
    cases hp : parse_booking_info d with
    | none =>
      have hp' : parse_booking_info d' = none := by rw [← hpp, hp]
      rw [email_keep_row_none kind d hp, email_keep_row_none kind d' hp']
    | some r' =>
      have hp' : parse_booking_info d' = some r' := by rw [← hpp, hp]
      cases kind with
      | booking =>
        rw [email_keep_booking_eq d r' hp, email_keep_booking_eq d' r' hp']
      | other =>
        rw [email_keep_other_eq d r' hp, email_keep_other_eq d' r' hp']

/-- C7 witness: a record kept although its document is not
channel-classified; adding the classification element changes nothing
because the decision depends only on the parse result. -/
theorem C7_witness :
    parse_booking_info emailOnlyDoc = parse_booking_info emailPlusChannelDoc ∧
    is_booking_com_xml emailOnlyDoc = false ∧
    is_booking_com_xml emailPlusChannelDoc = true ∧
    email_keep_row EmailKind.booking emailOnlyDoc
      = email_keep_row EmailKind.booking emailPlusChannelDoc :=
  ⟨by decide, by decide, by decide,
   (C7_email_mode EmailKind.booking emailOnlyDoc
     { start := "", endD := "", given := "", surname := "", phone := "",
       email := "", total := "", currency := "" }).2.2 emailPlusChannelDoc
     (by decide)⟩

/-! ## Strip-fixedness of parsed fields -/

theorem pyStrip_findTextDesc (tag : String) (root : XmlNode) :
    pyStrip (findTextDesc tag root) = findTextDesc tag root := by
  rw [findTextDesc]
  cases findDesc tag root with
  | none => rfl
  | some e => exact pyStrip_idem (e.txt.getD "")

theorem pyStrip_totalOf (o : Option XmlNode) :
    pyStrip (totalOf o) = totalOf o := by
  cases o with
  | none => rfl
  | some te =>
    rw [totalOf]
    split_ifs with h1 h2 h3
    · exact pyStrip_idem _
    · exact pyStrip_idem _
    · exact pyStrip_idem _
    · rfl

theorem parse_node_stripped (t : XmlNode) :
    pyStrip (parse_node t).start = (parse_node t).start ∧
    pyStrip (parse_node t).endD = (parse_node t).endD ∧
    pyStrip (parse_node t).given = (parse_node t).given ∧
    pyStrip (parse_node t).surname = (parse_node t).surname ∧
    pyStrip (parse_node t).phone = (parse_node t).phone ∧
    pyStrip (parse_node t).email = (parse_node t).email ∧
    pyStrip (parse_node t).total = (parse_node t).total ∧
    pyStrip (parse_node t).currency = (parse_node t).currency :=
  ⟨pyStrip_idem _, pyStrip_idem _, pyStrip_findTextDesc "GivenName" t,
   pyStrip_findTextDesc "Surname" t, pyStrip_idem _,
   pyStrip_findTextDesc "Email" t, pyStrip_totalOf _, pyStrip_idem _⟩

theorem parse_fields_stripped (d : RawDoc) (r : BookingInfo)
    (hp : parse_booking_info d = some r) :
    pyStrip r.start = r.start ∧ pyStrip r.endD = r.endD ∧
    pyStrip r.given = r.given ∧ pyStrip r.surname = r.surname ∧
    pyStrip r.phone = r.phone ∧ pyStrip r.email = r.email ∧
    pyStrip r.total = r.total ∧ pyStrip r.currency = r.currency := by
  rcases parseXml_cases d with hx | ⟨t, hx⟩
  · rw [parse_booking_info_none d hx] at hp
    cases hp
  · rw [parse_booking_info_some d t hx] at hp
    rw [← Option.some.inj hp]
    exact parse_node_stripped t

theorem price_email_eq_phone (d : RawDoc) (r : BookingInfo)
    (hp : parse_booking_info d = some r) :
    priceOfEmail r = priceOfPhone r := by
  obtain ⟨h1, h2, h3, h4, h5, h6, h7, h8⟩ := parse_fields_stripped d r hp
  rw [priceOfEmail, priceOfPhone, h7, h8]

/-! ## C8: report line formats and artifacts -/

/-- C8: in phone mode only channel-classified records are kept, the
artifact holds exactly one pipe-delimited
`Hotel|Arrival|Departure|FullName|Phone|Price` line per kept record, the
email-mode line differs only by the email inserted before the phone
field (for records produced by the parser), and a property with no kept
record yields no artifact in either mode. -/
theorem C8_report_format (hotel : String) (docs : List RawDoc) :
    (build_hotel_report hotel docs = none ↔ hotel_rows docs = []) ∧
    (∀ lines, build_hotel_report hotel docs = some lines →
      lines = (hotel_rows docs).map (hotel_line hotel) ∧
      lines.length = (hotel_rows docs).length) ∧
    (∀ d r, hotel_keep_row d = some r → is_booking_com_xml d = true) ∧
    (∀ r, hotel_line hotel r
      = hotel ++ "|" ++ r.start ++ "|" ++ r.endD ++ "|" ++ fullNameOf r ++ "|"
          ++ r.phone ++ "|" ++ priceOfPhone r) ∧
    (∀ d r, parse_booking_info d = some r →
      email_line hotel r
        = hotel ++ "|" ++ r.start ++ "|" ++ r.endD ++ "|" ++ fullNameOf r ++ "|"
            ++ r.email ++ "|" ++ r.phone ++ "|" ++ priceOfPhone r) ∧
    (∀ kind, build_email_report kind hotel docs = none ↔
      email_rows kind docs = []) := by
  refine ⟨?_, ?_, ?_, ?_, ?_, ?_⟩
  · constructor
    · intro h
      by_cases he : (hotel_rows docs).isEmpty = true
      · exact List.isEmpty_iff.mp he
      · rw [build_hotel_report, if_neg he] at h
        cases h
    · intro h
      rw [build_hotel_report, if_pos (by rw [h]; rfl)]
  · intro lines h
    by_cases he : (hotel_rows docs).isEmpty = true
    · rw [build_hotel_report, if_pos he] at h
      cases h
    · rw [build_hotel_report, if_neg he] at h
      have hl := (Option.some.inj h).symm
      exact ⟨hl, by rw [hl, List.length_map]⟩
  · exact fun d r h => (hotel_keep_row_some d r h).1
  · intro r
    rfl
  · intro d r hp
    obtain ⟨h1, h2, h3, h4, h5, h6, h7, h8⟩ := parse_fields_stripped d r hp
    rw [email_line, h1, h2, h5, h6, price_email_eq_phone d r hp]
  · intro kind
    constructor
    · intro h
      by_cases he : (email_rows kind docs).isEmpty = true
      · exact List.isEmpty_iff.mp he
      · rw [build_email_report, if_neg he] at h
        cases h
    · intro h
      rw [build_email_report, if_pos (by rw [h]; rfl)]

/-- C8 witness: evaluation on a fully populated document. -/
theorem C8_witness :
    parse_booking_info fullBookingDoc = some fullRecord ∧
    build_hotel_report "H" [fullBookingDoc]
      = some ["H|2025-09-12|2025-09-13|Ada Lovelace|+41791234567|100.0 EUR"] ∧
    email_line "H" fullRecord
      = "H" ++ "|" ++ fullRecord.start ++ "|" ++ fullRecord.endD ++ "|"
          ++ fullNameOf fullRecord ++ "|" ++ fullRecord.email ++ "|"
          ++ fullRecord.phone ++ "|" ++ priceOfPhone fullRecord :=
  ⟨by decide, by decide,
   (C8_report_format "H" [fullBookingDoc]).2.2.2.2.1 fullBookingDoc fullRecord
     (by decide)⟩

/-! ## C10: the keep check ignores the currency -/

theorem hotel_keep_isSome (d : RawDoc) :
    (hotel_keep_row d).isSome
      = (is_booking_com_xml d &&
          match (parse_booking_info d).map main7 with
          | some (s1, s2, s3, s4, s5, s6, s7) =>
            s1 ≠ "" || s2 ≠ "" || s3 ≠ "" || s4 ≠ "" || s5 ≠ "" || s6 ≠ ""
              || s7 ≠ ""
          | none => false) := by
  rcases parseXml_cases d with hp | ⟨t, hp⟩
  · rw [hotel_keep_row, is_booking_none d hp, parse_booking_info_none d hp]
    rfl
  · rw [hotel_keep_row, is_booking_some d t hp, parse_booking_info_some d t hp]
    by_cases hb : booking_channel_of t = true
    · rw [if_pos hb, hb, Bool.true_and]
      show (if anyMain7 (parse_node t) = true then some (parse_node t)
        else none).isSome = anyMain7 (parse_node t)
      by_cases ha : anyMain7 (parse_node t) = true
      · rw [if_pos ha, ha]
        rfl
      · rw [if_neg ha]
        cases hval : anyMain7 (parse_node t) with
        | true => exact absurd hval ha
        | false => rfl
    · have hbf : booking_channel_of t = false := by
        cases hval : booking_channel_of t with
        | true => exact absurd hval hb
        | false => rfl
      rw [if_neg hb, hbf, Bool.false_and]
      rfl

/-- C10: the phone-mode keep decision is a function of the channel
classification and the seven `main7` fields only — the currency never
enters it — so a classified, parseable document whose every field except
the currency is empty is dropped. -/
theorem C10_keep_ignores_currency :
    (∀ d₁ d₂, is_booking_com_xml d₁ = is_booking_com_xml d₂ →
      (parse_booking_info d₁).map main7 = (parse_booking_info d₂).map main7 →
      (hotel_keep_row d₁).isSome = (hotel_keep_row d₂).isSome) ∧
    (∀ d r, is_booking_com_xml d = true → parse_booking_info d = some r →
      r.start = "" → r.endD = "" → r.given = "" → r.surname = "" →
      r.phone = "" → r.email = "" → r.total = "" →
      hotel_keep_row d = none) := by
  constructor
  · intro d₁ d₂ hb hm
    rw [hotel_keep_isSome d₁, hotel_keep_isSome d₂, hb, hm]
  · intro d r hb hp h1 h2 h3 h4 h5 h6 h7
    have ha : anyMain7 r = false := by
      simp [anyMain7, h1, h2, h3, h4, h5, h6, h7]
    rcases parseXml_cases d with hx | ⟨t, hx⟩
    · rw [parse_booking_info_none d hx] at hp
      cases hp
    · rw [parse_booking_info_some d t hx] at hp
      have hr := Option.some.inj hp
      rw [is_booking_some d t hx] at hb
      rw [hotel_keep_row, is_booking_some d t hx,
        parse_booking_info_some d t hx, if_pos hb, hr]
      show (if anyMain7 r = true then some r else none) = none
      rw [if_neg (by rw [ha]; exact fun hc => Bool.noConfusion hc)]

/-- C10 witness: the classified document whose only non-empty extracted
field is the currency code is not kept. -/
theorem C10_witness :
    is_booking_com_xml currencyOnlyDoc = true ∧
    parse_booking_info currencyOnlyDoc = some currencyOnlyRecord ∧
    currencyOnlyRecord.currency = "EUR" ∧
    hotel_keep_row currencyOnlyDoc = none :=
  ⟨by decide, by decide, rfl,
   C10_keep_ignores_currency.2 currencyOnlyDoc currencyOnlyRecord (by decide)
     (by decide) rfl rfl rfl rfl rfl rfl rfl⟩

/-! ## C5: sentinel shutdown of the persistence queue -/

theorem busyCount_mid (pre post : List WStatus) (w : WStatus) :
    busyCount (pre ++ w :: post)
      = busyCount pre + busyCount post + (if isBusy w then 1 else 0) := by
  cases hw : isBusy w <;>
    simp [busyCount, List.filter_append, List.filter_cons, hw] <;> omega

theorem stoppedCount_mid (pre post : List WStatus) (w : WStatus) :
    stoppedCount (pre ++ w :: post)
      = stoppedCount pre + stoppedCount post + (if isStopped w then 1 else 0) := by
  cases hw : isStopped w <;>
    simp [stoppedCount, List.filter_append, List.filter_cons, hw] <;> omega

theorem sentinelsIn_cons (it : QItem) (rest : List QItem) :
    sentinelsIn (it :: rest)
      = sentinelsIn rest + (if isSentinel it then 1 else 0) := by
  cases hi : isSentinel it <;>
    simp [sentinelsIn, List.filter_cons, hi]

theorem sentinelsIn_append (q₁ q₂ : List QItem) :
    sentinelsIn (q₁ ++ q₂) = sentinelsIn q₁ + sentinelsIn q₂ := by
  simp [sentinelsIn, List.filter_append]

theorem len_mid {α : Type} (pre post : List α) (w : α) :
    (pre ++ w :: post).length = pre.length + post.length + 1 := by
  simp
  omega

theorem qstep_inv {N : ℕ} {s s' : QState} (hinv : QInv N s)
    (hstep : SysStep N s s') : QInv N s' := by
  obtain ⟨hunf, hsent, hsp, hnw, hagg⟩ := hinv
  cases hstep with
  | putSentinel q u sp ws ag hlt =>
    have hunf' : u = q.length + busyCount ws := hunf
    have hsent' : stoppedCount ws + sentinelsIn q = sp := hsent
    have hsp' : sp ≤ N := hsp
    have hnw' : ws.length = N := hnw
    have hagg' : ag = true → sp = N ∧ u = 0 := hagg
    refine ⟨?_, ?_, ?_, hnw', ?_⟩
    · show u + 1 = (q ++ [QItem.sentinel]).length + busyCount ws
      rw [List.length_append, List.length_singleton]
      omega
    · show stoppedCount ws + sentinelsIn (q ++ [QItem.sentinel]) = sp + 1
      rw [sentinelsIn_append]
      have h1 : sentinelsIn [QItem.sentinel] = 1 := rfl
      omega
    · show sp + 1 ≤ N
      omega
    · show ag = true → sp + 1 = N ∧ u + 1 = 0
      intro h
      have := hagg' h
      omega
  | takeDoc rest u sp pre post ag =>
    have hb0 : (if isBusy WStatus.idle then 1 else 0) = 0 := rfl
    have hb1 : (if isBusy WStatus.busy then 1 else 0) = 1 := rfl
    have hs0 : (if isStopped WStatus.idle then 1 else 0) = 0 := rfl
    have hs1 : (if isStopped WStatus.busy then 1 else 0) = 0 := rfl
    have hd0 : (if isSentinel QItem.doc then 1 else 0) = 0 := rfl
    have hunf' : u = (QItem.doc :: rest).length
        + busyCount (pre ++ WStatus.idle :: post) := hunf
    rw [List.length_cons, busyCount_mid, hb0] at hunf'
    have hsent' : stoppedCount (pre ++ WStatus.idle :: post)
        + sentinelsIn (QItem.doc :: rest) = sp := hsent
    rw [stoppedCount_mid, hs0, sentinelsIn_cons, hd0] at hsent'
    have hsp' : sp ≤ N := hsp
    have hnw' : (pre ++ WStatus.idle :: post).length = N := hnw
    rw [len_mid] at hnw'
    have hagg' : ag = true → sp = N ∧ u = 0 := hagg
    refine ⟨?_, ?_, hsp', ?_, ?_⟩
    · show u = rest.length + busyCount (pre ++ WStatus.busy :: post)
      rw [busyCount_mid, hb1]
      omega
    · show stoppedCount (pre ++ WStatus.busy :: post) + sentinelsIn rest = sp
      rw [stoppedCount_mid, hs1]
      omega
    · show (pre ++ WStatus.busy :: post).length = N
      rw [len_mid]
      omega
    · show ag = true → sp = N ∧ u = 0
      intro h
      have := hagg' h
      omega
  | takeSentinel rest u sp pre post ag =>
    have hb0 : (if isBusy WStatus.idle then 1 else 0) = 0 := rfl
    have hb2 : (if isBusy WStatus.stopped then 1 else 0) = 0 := rfl
    have hs0 : (if isStopped WStatus.idle then 1 else 0) = 0 := rfl
    have hs2 : (if isStopped WStatus.stopped then 1 else 0) = 1 := rfl
    have hd1 : (if isSentinel QItem.sentinel then 1 else 0) = 1 := rfl
    have hunf' : u = (QItem.sentinel :: rest).length
        + busyCount (pre ++ WStatus.idle :: post) := hunf
    rw [List.length_cons, busyCount_mid, hb0] at hunf'
    have hsent' : stoppedCount (pre ++ WStatus.idle :: post)
        + sentinelsIn (QItem.sentinel :: rest) = sp := hsent
    rw [stoppedCount_mid, hs0, sentinelsIn_cons, hd1] at hsent'
    have hsp' : sp ≤ N := hsp
    have hnw' : (pre ++ WStatus.idle :: post).length = N := hnw
    rw [len_mid] at hnw'
    have hagg' : ag = true → sp = N ∧ u = 0 := hagg
    refine ⟨?_, ?_, hsp', ?_, ?_⟩
    · show u - 1 = rest.length + busyCount (pre ++ WStatus.stopped :: post)
      rw [busyCount_mid, hb2]
      omega
    · show stoppedCount (pre ++ WStatus.stopped :: post) + sentinelsIn rest = sp
      rw [stoppedCount_mid, hs2]
      omega
    · show (pre ++ WStatus.stopped :: post).length = N
      rw [len_mid]
      omega
    · show ag = true → sp = N ∧ u - 1 = 0
      intro h
      have := hagg' h
      omega
  | finishDoc q u sp pre post ag =>
    have hb0 : (if isBusy WStatus.idle then 1 else 0) = 0 := rfl
    have hb1 : (if isBusy WStatus.busy then 1 else 0) = 1 := rfl
    have hs0 : (if isStopped WStatus.idle then 1 else 0) = 0 := rfl
    have hs1 : (if isStopped WStatus.busy then 1 else 0) = 0 := rfl
    have hunf' : u = q.length + busyCount (pre ++ WStatus.busy :: post) := hunf
    rw [busyCount_mid, hb1] at hunf'
    have hsent' : stoppedCount (pre ++ WStatus.busy :: post)
        + sentinelsIn q = sp := hsent
    rw [stoppedCount_mid, hs1] at hsent'
    have hsp' : sp ≤ N := hsp
    have hnw' : (pre ++ WStatus.busy :: post).length = N := hnw
    rw [len_mid] at hnw'
    have hagg' : ag = true → sp = N ∧ u = 0 := hagg
    refine ⟨?_, ?_, hsp', ?_, ?_⟩
    · show u - 1 = q.length + busyCount (pre ++ WStatus.idle :: post)
      rw [busyCount_mid, hb0]
      omega
    · show stoppedCount (pre ++ WStatus.idle :: post) + sentinelsIn q = sp
      rw [stoppedCount_mid, hs0]
      omega
    · show (pre ++ WStatus.idle :: post).length = N
      rw [len_mid]
      omega
    · show ag = true → sp = N ∧ u - 1 = 0
      intro h
      have := hagg' h
      omega
  | aggregate q u sp ws hspN hu0 =>
    exact ⟨hunf, hsent, hsp, hnw, fun _ => ⟨hspN, hu0⟩⟩

theorem reach_inv {N : ℕ} {init s : QState} (h0 : InitOk N init)
    (hr : Reach N init s) : QInv N s := by
  induction hr with
  | refl =>
    refine ⟨h0.unf, ?_, ?_, h0.nw, ?_⟩
    · rw [h0.noStopped, h0.noSent, h0.sp0]
    · rw [h0.sp0]
      exact Nat.zero_le N
    · intro h
      rw [h0.agg] at h
      cases h
  | step hr hstep ih => exact qstep_inv ih hstep

/-- C5: in every run of the shutdown protocol, a worker counts as stopped
only against a sentinel put by the producer (stopped workers never exceed
the sentinels accounted for), at most `N` sentinels are ever enqueued,
and once control reaches aggregation the producer has put exactly `N`
sentinels — one per worker — the queue is fully drained (no unfinished
item, empty queue), and every one of the `N` workers has stopped. -/
theorem C5_shutdown_barrier (N : ℕ) (init s : QState) (h0 : InitOk N init)
    (hr : Reach N init s) :
    (stoppedCount s.workers + sentinelsIn s.queue = s.sentinelsPut ∧
      s.sentinelsPut ≤ N) ∧
    (s.aggregated = true →
      s.sentinelsPut = N ∧ s.unfinished = 0 ∧ s.queue = [] ∧
      s.workers.length = N ∧ ∀ w ∈ s.workers, w = WStatus.stopped) := by
  have hinv := reach_inv h0 hr
  refine ⟨⟨hinv.sent, hinv.spLe⟩, ?_⟩
  intro hag
  obtain ⟨hspN, hu0⟩ := hinv.agg hag
  have hq : s.queue = [] := by
    have huf := hinv.unf
    rw [hu0] at huf
    have hlen : s.queue.length = 0 := by omega
    exact List.length_eq_zero.mp hlen
  have hsc : stoppedCount s.workers = N := by
    have huf := hinv.sent
    rw [hq] at huf
    simp only [sentinelsIn, List.filter_nil, List.length_nil] at huf
    omega
  have hstopped : ∀ w ∈ s.workers, isStopped w = true := by
    rw [← List.filter_length_eq_length]
    rw [stoppedCount] at hsc
    rw [hsc, hinv.nw]
  refine ⟨hspN, hu0, hq, hinv.nw, ?_⟩
  intro w hw
  have hws := hstopped w hw
  cases w with
  | idle => exact Bool.noConfusion hws
  | busy => exact Bool.noConfusion hws
  | stopped => rfl

/-- C5 witness: the theorem applied to a concrete two-worker run that
puts both sentinels, stops both workers and aggregates. -/
theorem C5_witness :
    InitOk 2 initTwo ∧
    (endTwo.sentinelsPut = 2 ∧ endTwo.unfinished = 0 ∧ endTwo.queue = [] ∧
      endTwo.workers.length = 2 ∧ ∀ w ∈ endTwo.workers, w = WStatus.stopped) := by
  have h0 : InitOk 2 initTwo := ⟨rfl, rfl, rfl, rfl, rfl, rfl⟩
  have hr : Reach 2 initTwo endTwo :=
    Reach.step
      (Reach.step
        (Reach.step
          (Reach.step
            (Reach.step Reach.refl
              (SysStep.putSentinel [] 0 0 [WStatus.idle, WStatus.idle] false
                (by omega)))
            (SysStep.putSentinel [QItem.sentinel] 1 1
              [WStatus.idle, WStatus.idle] false (by omega)))
          (SysStep.takeSentinel [QItem.sentinel] 2 2 [] [WStatus.idle] false))
        (SysStep.takeSentinel [] 1 2 [WStatus.stopped] [] false))
      (SysStep.aggregate [] 0 2 [WStatus.stopped, WStatus.stopped] rfl rfl)
  exact ⟨h0, (C5_shutdown_barrier 2 initTwo endTwo h0 hr).2 rfl⟩

end DH
